import Mathlib

/-!
Shallow embedding of `src/src/rtree/rtree3d.rs` from funnbot/bevy-spatial.

The file under `src/` implements the `SpatialAccess` trait for a 3D R-tree
wrapper (`RTreeAccess3D`).  Every trait method delegates to the `rstar`
crate's `RTree`; we model that tree as the list of its elements, with the
operations given the semantics the `rstar` documentation states:

  * `insert` adds one element (duplicates allowed, size grows by one);
  * `remove(&query)` removes and returns a single element equal to the
    query (equality is the element type's `PartialEq`), or `None`;
  * `nearest_neighbor` returns an element with minimal squared distance;
  * `nearest_neighbor_iter` yields all elements in non-decreasing order of
    squared distance to the query point;
  * `locate_within_distance(p, d2)` yields all elements whose squared
    distance to `p` is `≤ d2`;
  * `bulk_load` builds a tree containing exactly the given elements;
  * `size` is the number of elements.

Coordinates (`Vec3`, `f32` components in the source) are modelled with
exact integers (the algorithms use only ring and order operations on
coordinates, so nothing in the claims depends on fractional values), and
`Entity` (an opaque bevy identifier) with `ℕ`.

`EntityPoint3D` itself — its `PartialEq` and its `From` conversions, used
by `remove_point` / `remove_entity` — lives in `crate::common`, which is
not under `src/`; those pieces are modelled from the spec and marked so.
-/

/-- A 3D coordinate; the source's `bevy::prelude::Vec3` (three `f32`
components), modelled with exact integers. -/
abbrev Vec3 : Type := ℤ × ℤ × ℤ

/-- An opaque entity identifier (bevy `Entity`). -/
abbrev Entity : Type := ℕ

/-- `Vec3::distance_squared`: squared Euclidean distance between two
coordinates, used by `distance_squared` and `PointDistance::distance_2`
in the source. -/
def Vec3.distance_squared (a b : Vec3) : ℤ :=
  (a.1 - b.1) ^ 2 + (a.2.1 - b.2.1) ^ 2 + (a.2.2 - b.2.2) ^ 2

/-- `EntityPoint3D` from `crate::common`: a coordinate paired with the
entity it belongs to (the spec's TrackedPoint: "an immutable value binding
a coordinate (2D or 3D) to an entity identifier"). -/
structure EntityPoint3D where
  vec : Vec3
  entity : Entity
deriving DecidableEq, Repr

/-- `PointDistance for EntityPoint3D` (bottom of `rtree3d.rs`):
`self.vec.distance_squared(Vec3::from_slice(point))`. -/
def EntityPoint3D.distance_2 (p : EntityPoint3D) (point : Vec3) : ℤ :=
  p.vec.distance_squared point

/-- Modelled from the spec: `impl From<(Vec3, Entity)> for EntityPoint3D`
lives in `crate::common`, not under `src/`; per the spec a TrackedPoint
"constructs from a (coordinate, EntityId) pair". -/
def entityPointOfPair (e : Vec3 × Entity) : EntityPoint3D :=
  ⟨e.1, e.2⟩

/-- Modelled from the spec: the `PartialEq` of `EntityPoint3D` used by
`tree.remove(&point.into())` in `remove_point` lives in `crate::common`,
not under `src/`; per the spec "Two TrackedPoints are considered the same
index element iff both coordinate and entity match". -/
def pointMatch (query x : EntityPoint3D) : Bool :=
  x.vec = query.vec && x.entity = query.entity

/-- Modelled from the spec: `remove_entity` calls
`tree.remove(&entity.into())`, where `impl From<Entity> for EntityPoint3D`
lives in `crate::common`, not under `src/`; per the spec removal-by-entity
"must tolerate not knowing the exact current coordinate stored for that
entity and succeed by entity match alone", so the matcher compares only
the entity. -/
def entityMatch (e : Entity) (x : EntityPoint3D) : Bool :=
  x.entity = e

namespace RTree

/-- `RTree::insert`: adds one element to the tree. -/
def insert (t : List EntityPoint3D) (x : EntityPoint3D) : List EntityPoint3D :=
  t ++ [x]

/-- `RTree::remove(&query)`: removes and returns a single element matching
the query, or none; the matcher is passed in because `remove_point` and
`remove_entity` build their query values differently. -/
def removeFirst (p : EntityPoint3D → Bool) :
    List EntityPoint3D → Option EntityPoint3D × List EntityPoint3D
  | [] => (none, [])
  | x :: xs =>
    if p x then (some x, xs)
    else ((removeFirst p xs).1, x :: (removeFirst p xs).2)

/-- Ordering of tree elements by squared distance to a query point. -/
def distRel (q : Vec3) (a b : EntityPoint3D) : Prop :=
  a.distance_2 q ≤ b.distance_2 q

instance (q : Vec3) : DecidableRel (distRel q) :=
  fun a b => inferInstanceAs (Decidable (a.distance_2 q ≤ b.distance_2 q))

instance (q : Vec3) : IsTotal EntityPoint3D (distRel q) :=
  ⟨fun a b => le_total (a.distance_2 q) (b.distance_2 q)⟩

instance (q : Vec3) : IsTrans EntityPoint3D (distRel q) :=
  ⟨fun _ _ _ hab hbc => le_trans hab hbc⟩

/-- `RTree::nearest_neighbor_iter`: all elements, in non-decreasing order
of squared distance to the query point. -/
def nearestNeighborIter (t : List EntityPoint3D) (q : Vec3) : List EntityPoint3D :=
  List.insertionSort (distRel q) t

/-- `RTree::nearest_neighbor`: an element with minimal squared distance to
the query point, or none on an empty tree. -/
def nearestNeighbor (t : List EntityPoint3D) (q : Vec3) : Option EntityPoint3D :=
  (nearestNeighborIter t q).head?

/-- `RTree::locate_within_distance(p, d2)`: all elements whose squared
distance to `p` is at most `d2`. -/
def locateWithinDistance (t : List EntityPoint3D) (q : Vec3) (d2 : ℤ) :
    List EntityPoint3D :=
  t.filter (fun p => p.distance_2 q ≤ d2)

/-- `RTree::bulk_load_with_params`: a tree containing exactly the given
elements. -/
def bulkLoad (elems : List EntityPoint3D) : List EntityPoint3D :=
  elems

/-- `RTree::size`: number of elements. -/
def size (t : List EntityPoint3D) : ℕ :=
  t.length

end RTree

/-- The spatial index adapter: the `rstar` tree plus the two
maintenance-policy parameters (`min_moved`, `recreate_after`). -/
structure RTreeAccess3D where
  tree : List EntityPoint3D
  min_moved : ℤ
  recreate_after : ℕ
deriving DecidableEq, Repr

/-- `fn distance_squared(&self, loc_a: Vec3, loc_b: Vec3) -> f32`. -/
def RTreeAccess3D.distance_squared (_t : RTreeAccess3D) (loc_a loc_b : Vec3) : ℤ :=
  loc_a.distance_squared loc_b

/-- `fn nearest_neighbour(&self, loc: Vec3) -> Option<(Vec3, Entity)>`:
`self.tree.nearest_neighbor(&[loc.x, loc.y, loc.z])` mapped to
`(point.vec, point.entity)`. -/
def RTreeAccess3D.nearest_neighbour (t : RTreeAccess3D) (loc : Vec3) :
    Option (Vec3 × Entity) :=
  (RTree.nearestNeighbor t.tree loc).map (fun point => (point.vec, point.entity))

/-- `fn k_nearest_neighbour(&self, loc: Vec3, k: usize)`:
`nearest_neighbor_iter(..).take(k).map(|e| (e.vec, e.entity)).collect()`. -/
def RTreeAccess3D.k_nearest_neighbour (t : RTreeAccess3D) (loc : Vec3) (k : ℕ) :
    List (Vec3 × Entity) :=
  ((RTree.nearestNeighborIter t.tree loc).take k).map (fun e => (e.vec, e.entity))

/-- `fn within_distance(&self, loc: Vec3, distance: f32)`:
`locate_within_distance([..], distance.powi(2)).map(|e| (e.vec, e.entity))`. -/
def RTreeAccess3D.within_distance (t : RTreeAccess3D) (loc : Vec3) (distance : ℤ) :
    List (Vec3 × Entity) :=
  (RTree.locateWithinDistance t.tree loc (distance ^ 2)).map
    (fun e => (e.vec, e.entity))

/-- `fn recreate(&mut self, all: Vec<(Vec3, Entity)>)`: bulk-loads a fresh
tree from `all` and assigns it over the old one. -/
def RTreeAccess3D.recreate (t : RTreeAccess3D) (all : List (Vec3 × Entity)) :
    RTreeAccess3D :=
  { t with tree := RTree.bulkLoad (all.map entityPointOfPair) }

/-- `fn add_point(&mut self, point: (Vec3, Entity))`:
`self.tree.insert(point.into())`. -/
def RTreeAccess3D.add_point (t : RTreeAccess3D) (point : Vec3 × Entity) :
    RTreeAccess3D :=
  { t with tree := RTree.insert t.tree (entityPointOfPair point) }

/-- `fn remove_point(&mut self, point: (Vec3, Entity)) -> bool`:
`self.tree.remove(&point.into()).is_some()`; returns the flag together
with the updated state. -/
def RTreeAccess3D.remove_point (t : RTreeAccess3D) (point : Vec3 × Entity) :
    Bool × RTreeAccess3D :=
  let r := RTree.removeFirst (pointMatch (entityPointOfPair point)) t.tree
  (r.1.isSome, { t with tree := r.2 })

/-- `fn remove_entity(&mut self, entity: Entity) -> bool`:
`self.tree.remove(&entity.into()).is_some()`; returns the flag together
with the updated state. -/
def RTreeAccess3D.remove_entity (t : RTreeAccess3D) (entity : Entity) :
    Bool × RTreeAccess3D :=
  let r := RTree.removeFirst (entityMatch entity) t.tree
  (r.1.isSome, { t with tree := r.2 })

/-- `fn size(&self) -> usize`: `self.tree.size()`. -/
def RTreeAccess3D.size (t : RTreeAccess3D) : ℕ :=
  RTree.size t.tree

/-- `fn get_min_dist(&self) -> f32`. -/
def RTreeAccess3D.get_min_dist (t : RTreeAccess3D) : ℤ :=
  t.min_moved

/-- `fn get_recreate_after(&self) -> usize`. -/
def RTreeAccess3D.get_recreate_after (t : RTreeAccess3D) : ℕ :=
  t.recreate_after

/-- Spec-side predicate: the Euclidean distance from `q` to `p` is at most
`r`.  Stated over the rationals without a square root: since the distance
is the nonnegative square root of `Vec3.distance_squared q p`, it is `≤ r`
exactly when `r` is nonnegative and the squared distance is `≤ r ^ 2`. -/
def distLe (q p : Vec3) (r : ℤ) : Prop :=
  0 ≤ r ∧ q.distance_squared p ≤ r ^ 2

instance (q p : Vec3) (r : ℤ) : Decidable (distLe q p r) :=
  inferInstanceAs (Decidable (_ ∧ _))

/-- Number of entries stored for a given entity. -/
def RTreeAccess3D.countEntity (t : RTreeAccess3D) (e : Entity) : ℕ :=
  (t.tree.filter (entityMatch e)).length

/-! ### Helper lemmas about the tree model -/

theorem Vec3.distance_squared_comm (a b : Vec3) :
    a.distance_squared b = b.distance_squared a := by
  unfold Vec3.distance_squared
  ring

theorem RTree.removeFirst_fst_isSome_iff (p : EntityPoint3D → Bool)
    (l : List EntityPoint3D) :
    ((RTree.removeFirst p l).1).isSome = true ↔ ∃ x ∈ l, p x = true := by
  induction l with
  | nil => simp [RTree.removeFirst]
  | cons x xs ih =>
    by_cases h : p x
    · simp [RTree.removeFirst, h]
    · simp [RTree.removeFirst, h, ih]

theorem RTree.removeFirst_fst_eq_none (p : EntityPoint3D → Bool)
    (l : List EntityPoint3D) (h : (RTree.removeFirst p l).1 = none) :
    (RTree.removeFirst p l).2 = l := by
  induction l with
  | nil => simp [RTree.removeFirst]
  | cons x xs ih =>
    by_cases hx : p x
    · simp [RTree.removeFirst, hx] at h
    · simp only [RTree.removeFirst, hx] at h ⊢
      simp only [Bool.false_eq_true, if_false] at h ⊢
      exact congrArg (x :: ·) (ih h)

theorem RTree.removeFirst_fst_eq_some (p : EntityPoint3D → Bool)
    (l : List EntityPoint3D) (x : EntityPoint3D)
    (h : (RTree.removeFirst p l).1 = some x) :
    p x = true ∧
      ∃ l1 l2, l = l1 ++ x :: l2 ∧ (RTree.removeFirst p l).2 = l1 ++ l2 := by
  induction l with
  | nil => simp [RTree.removeFirst] at h
  | cons y ys ih =>
    by_cases hy : p y
    · simp only [RTree.removeFirst, hy, if_true] at h ⊢
      obtain rfl : y = x := by injection h
      exact ⟨hy, [], ys, rfl, rfl⟩
    · simp only [RTree.removeFirst, hy, Bool.false_eq_true, if_false] at h ⊢
      obtain ⟨hx, l1, l2, hsplit, hrest⟩ := ih h
      exact ⟨hx, y :: l1, l2, by simp [hsplit], by simp [hrest]⟩

theorem RTree.removeFirst_snd_length (p : EntityPoint3D → Bool)
    (l : List EntityPoint3D) (x : EntityPoint3D)
    (h : (RTree.removeFirst p l).1 = some x) :
    (RTree.removeFirst p l).2.length + 1 = l.length := by
  obtain ⟨-, l1, l2, hsplit, hrest⟩ := RTree.removeFirst_fst_eq_some p l x h
  subst hsplit
  simp [hrest]
  omega

theorem RTree.nearestNeighbor_spec (l : List EntityPoint3D) (q : Vec3)
    (x : EntityPoint3D) (hx : RTree.nearestNeighbor l q = some x) :
    x ∈ l ∧ ∀ y ∈ l, x.distance_2 q ≤ y.distance_2 q := by
  unfold RTree.nearestNeighbor at hx
  rcases hs : RTree.nearestNeighborIter l q with _ | ⟨a, s⟩
  · rw [hs] at hx
    simp at hx
  · rw [hs] at hx
    have hax : a = x := by simpa using hx
    have hsorted : List.Sorted (RTree.distRel q) (RTree.nearestNeighborIter l q) :=
      List.sorted_insertionSort (RTree.distRel q) l
    rw [hs] at hsorted
    have hmem : x ∈ l := by
      have hx' : x ∈ RTree.nearestNeighborIter l q := by
        rw [hs, ← hax]; exact List.mem_cons_self a s
      simpa [RTree.nearestNeighborIter] using hx'
    refine ⟨hmem, fun y hy => ?_⟩
    have hy' : y ∈ RTree.nearestNeighborIter l q := by
      simpa [RTree.nearestNeighborIter] using hy
    rw [hs] at hy'
    rcases List.mem_cons.mp hy' with rfl | hy''
    · exact le_of_eq (by rw [hax])
    · have := List.rel_of_sorted_cons hsorted y hy''
      rw [hax] at this
      exact this

theorem RTree.nearestNeighbor_eq_none_iff (l : List EntityPoint3D) (q : Vec3) :
    RTree.nearestNeighbor l q = none ↔ l = [] := by
  unfold RTree.nearestNeighbor
  rw [List.head?_eq_none_iff]
  constructor
  · intro h
    have := congrArg List.length h
    simpa [RTree.nearestNeighborIter, List.length_insertionSort,
      List.length_eq_zero] using this
  · intro h
    subst h
    rfl

/-! ### Claim theorems -/

/-- Claim C5: for every index state and every point `p = (coordinate,
entity)`, `add_point p` immediately followed by `remove_entity p.entity`
yields a `remove_entity` result of `true`, and `size` after the pair
equals `size` before the pair. -/
theorem add_then_remove_entity_round_trip (t : RTreeAccess3D)
    (point : Vec3 × Entity) :
    ((t.add_point point).remove_entity point.2).1 = true ∧
    ((t.add_point point).remove_entity point.2).2.size = t.size := by
  have hmem : ∃ x ∈ (t.add_point point).tree, entityMatch point.2 x = true := by
    refine ⟨entityPointOfPair point, ?_, ?_⟩
    · simp [RTreeAccess3D.add_point, RTree.insert]
    · simp [entityMatch, entityPointOfPair]
  have hsome :
      ((RTree.removeFirst (entityMatch point.2) (t.add_point point).tree).1).isSome
        = true :=
    (RTree.removeFirst_fst_isSome_iff _ _).mpr hmem
  refine ⟨by simpa [RTreeAccess3D.remove_entity] using hsome, ?_⟩
  obtain ⟨x, hx⟩ := Option.isSome_iff_exists.mp hsome
  have hlen := RTree.removeFirst_snd_length (entityMatch point.2)
    (t.add_point point).tree x hx
  have hadd : (t.add_point point).tree.length = t.tree.length + 1 := by
    simp [RTreeAccess3D.add_point, RTree.insert]
  simp only [RTreeAccess3D.remove_entity, RTreeAccess3D.size, RTree.size]
  omega

/-- Claim C6: after `recreate all`, the index's query results
(`nearest_neighbour`, `k_nearest_neighbour`, `within_distance`, `size`)
are identical to those of a freshly bulk-built index over `all` (with any
configuration parameters `d`, `n`), regardless of the prior state `t`. -/
theorem recreate_rebuild_equivalence (t : RTreeAccess3D)
    (all : List (Vec3 × Entity)) (d : ℤ) (n : ℕ) :
    (∀ q, (t.recreate all).nearest_neighbour q =
      (RTreeAccess3D.mk (RTree.bulkLoad (all.map entityPointOfPair)) d
        n).nearest_neighbour q) ∧
    (∀ q k, (t.recreate all).k_nearest_neighbour q k =
      (RTreeAccess3D.mk (RTree.bulkLoad (all.map entityPointOfPair)) d
        n).k_nearest_neighbour q k) ∧
    (∀ q r, (t.recreate all).within_distance q r =
      (RTreeAccess3D.mk (RTree.bulkLoad (all.map entityPointOfPair)) d
        n).within_distance q r) ∧
    (t.recreate all).size =
      (RTreeAccess3D.mk (RTree.bulkLoad (all.map entityPointOfPair)) d n).size :=
  ⟨fun _ => rfl, fun _ _ => rfl, fun _ _ => rfl, rfl⟩

/-- Claim C8: `add_point` always succeeds and increases `size` by exactly
one; it increments the number of entries stored for the point's entity, so
if an entry for the same entity already existed the tree afterwards holds
at least two entries for that entity (no deduplication or replacement). -/
theorem add_point_always_inserts (t : RTreeAccess3D) (point : Vec3 × Entity) :
    (t.add_point point).size = t.size + 1 ∧
    (t.add_point point).countEntity point.2 = t.countEntity point.2 + 1 ∧
    (1 ≤ t.countEntity point.2 →
      2 ≤ (t.add_point point).countEntity point.2) := by
  have hcount : (t.add_point point).countEntity point.2 =
      t.countEntity point.2 + 1 := by
    simp [RTreeAccess3D.countEntity, RTreeAccess3D.add_point, RTree.insert,
      List.filter_append, entityMatch, entityPointOfPair]
  refine ⟨?_, hcount, fun h => by omega⟩
  simp [RTreeAccess3D.size, RTree.size, RTreeAccess3D.add_point, RTree.insert]

/-- Witness for C8 at a one-point index that already holds entity 7. -/
theorem add_point_always_inserts_witness :
    2 ≤ ((RTreeAccess3D.mk [⟨(0, 0, 0), 7⟩] 0 0).add_point
      ((3, 4, 5), 7)).countEntity 7 :=
  (add_point_always_inserts (RTreeAccess3D.mk [⟨(0, 0, 0), 7⟩] 0 0)
    ((3, 4, 5), 7)).2.2 (by decide)

/-- Claim C9: because the radius is squared before comparison,
`within_distance q r` returns exactly the same list as
`within_distance q (-r)`: a negative radius behaves like its absolute
value. -/
theorem within_distance_neg_radius_abs (t : RTreeAccess3D) (q : Vec3) (r : ℤ) :
    t.within_distance q r = t.within_distance q (-r) := by
  simp [RTreeAccess3D.within_distance, neg_sq]

theorem pointMatch_iff (query x : EntityPoint3D) :
    pointMatch query x = true ↔ x = query := by
  cases x
  cases query
  simp [pointMatch, EntityPoint3D.mk.injEq]

/-- Counterexample to claim C1 as stated: with two entries stored for
entity 1 (at different coordinates), `remove_entity 1` reports `true` but
removes only one of them — one entry for entity 1 is still stored, so the
call does not remove "the entry (or entries)" for the entity. -/
theorem remove_entity_removes_only_one_cex :
    ((RTreeAccess3D.mk [⟨(0, 0, 0), 1⟩, ⟨(2, 0, 0), 1⟩] 0 0).remove_entity 1).1
        = true ∧
    ((RTreeAccess3D.mk [⟨(0, 0, 0), 1⟩, ⟨(2, 0, 0), 1⟩] 0 0).remove_entity
        1).2.countEntity 1 = 1 := by
  decide

/-- Claim C1 (amended): `remove_entity e` removes a single entry stored
for `e`, regardless of the coordinate stored with it (the number of
entries for `e` and the total size both drop by exactly one), and returns
`true` iff at least one entry for `e` exists — equivalently, iff an entry
was removed; it returns `false` exactly when no entry for `e` exists. -/
theorem remove_entity_spec (t : RTreeAccess3D) (e : Entity) :
    ((t.remove_entity e).1 = true ↔ ∃ x ∈ t.tree, x.entity = e) ∧
    ((t.remove_entity e).1 = true →
      (t.remove_entity e).2.countEntity e + 1 = t.countEntity e ∧
      (t.remove_entity e).2.size + 1 = t.size) := by
  constructor
  · rw [show (t.remove_entity e).1 =
        ((RTree.removeFirst (entityMatch e) t.tree).1).isSome from rfl,
      RTree.removeFirst_fst_isSome_iff]
    simp [entityMatch]
  · intro htrue
    have hsome : ((RTree.removeFirst (entityMatch e) t.tree).1).isSome = true := by
      simpa [RTreeAccess3D.remove_entity] using htrue
    obtain ⟨x, hx⟩ := Option.isSome_iff_exists.mp hsome
    obtain ⟨hmatch, l1, l2, hsplit, hrest⟩ :=
      RTree.removeFirst_fst_eq_some (entityMatch e) t.tree x hx
    constructor
    · have h1 : t.countEntity e =
          (l1.filter (entityMatch e)).length +
            ((l2.filter (entityMatch e)).length + 1) := by
        simp [RTreeAccess3D.countEntity, hsplit, List.filter_append,
          List.filter_cons, hmatch]
      have h2 : (t.remove_entity e).2.countEntity e =
          (l1.filter (entityMatch e)).length +
            (l2.filter (entityMatch e)).length := by
        simp [RTreeAccess3D.countEntity, RTreeAccess3D.remove_entity, hrest,
          List.filter_append]
      omega
    · have hlen := RTree.removeFirst_snd_length (entityMatch e) t.tree x hx
      simpa [RTreeAccess3D.remove_entity, RTreeAccess3D.size, RTree.size]
        using hlen

/-- Witness for C1: on an index holding entities 1 and 2, removing
entity 2 succeeds and shrinks the size from 2 to 1. -/
theorem remove_entity_spec_witness :
    ((RTreeAccess3D.mk [⟨(0, 0, 0), 1⟩, ⟨(2, 0, 0), 2⟩] 0 0).remove_entity
        2).2.size + 1 =
      (RTreeAccess3D.mk [⟨(0, 0, 0), 1⟩, ⟨(2, 0, 0), 2⟩] 0 0).size :=
  ((remove_entity_spec (RTreeAccess3D.mk [⟨(0, 0, 0), 1⟩, ⟨(2, 0, 0), 2⟩] 0 0)
    2).2 (by decide)).2

/-- Claim C7: `remove_point p` removes an entry only when both its stored
coordinate and its entity match `p` exactly (the removed entry is
literally `p`), returns `true` iff such a matching entry exists in the
tree (and is then removed), and leaves the state unchanged when it
returns `false`. -/
theorem remove_point_exact_match (t : RTreeAccess3D) (point : Vec3 × Entity) :
    ((t.remove_point point).1 = true ↔ entityPointOfPair point ∈ t.tree) ∧
    ((t.remove_point point).1 = true →
      ∃ l1 l2, t.tree = l1 ++ entityPointOfPair point :: l2 ∧
        (t.remove_point point).2.tree = l1 ++ l2) ∧
    ((t.remove_point point).1 = false → (t.remove_point point).2 = t) := by
  refine ⟨?_, ?_, ?_⟩
  · rw [show (t.remove_point point).1 =
        ((RTree.removeFirst (pointMatch (entityPointOfPair point))
          t.tree).1).isSome from rfl,
      RTree.removeFirst_fst_isSome_iff]
    constructor
    · rintro ⟨x, hxmem, hxmatch⟩
      rwa [(pointMatch_iff _ x).mp hxmatch] at hxmem
    · intro hmem
      exact ⟨entityPointOfPair point, hmem, (pointMatch_iff _ _).mpr rfl⟩
  · intro htrue
    have hsome : ((RTree.removeFirst (pointMatch (entityPointOfPair point))
        t.tree).1).isSome = true := by
      simpa [RTreeAccess3D.remove_point] using htrue
    obtain ⟨x, hx⟩ := Option.isSome_iff_exists.mp hsome
    obtain ⟨hmatch, l1, l2, hsplit, hrest⟩ :=
      RTree.removeFirst_fst_eq_some _ t.tree x hx
    obtain rfl := (pointMatch_iff _ x).mp hmatch
    exact ⟨l1, l2, hsplit, by
      simpa [RTreeAccess3D.remove_point] using hrest⟩
  · intro hfalse
    have hnone : (RTree.removeFirst (pointMatch (entityPointOfPair point))
        t.tree).1 = none := by
      have : ((RTree.removeFirst (pointMatch (entityPointOfPair point))
          t.tree).1).isSome = false := by
        simpa [RTreeAccess3D.remove_point] using hfalse
      exact Option.not_isSome_iff_eq_none.mp (by simp [this])
    have hsnd := RTree.removeFirst_fst_eq_none _ t.tree hnone
    simp [RTreeAccess3D.remove_point, hsnd]

/-- Witness for C7: removing a point absent from a one-point index
returns `false` and leaves the index unchanged. -/
theorem remove_point_exact_match_witness :
    ((RTreeAccess3D.mk [⟨(0, 0, 0), 1⟩] 0 0).remove_point ((2, 0, 0), 1)).2 =
      RTreeAccess3D.mk [⟨(0, 0, 0), 1⟩] 0 0 :=
  (remove_point_exact_match (RTreeAccess3D.mk [⟨(0, 0, 0), 1⟩] 0 0)
    ((2, 0, 0), 1)).2.2 (by decide)

/-- Claim C10: a call to `remove_point` or `remove_entity` that returns
`true` removes exactly one entry (the size drops by exactly one and the
tree splits as `l1 ++ removed :: l2` with the result `l1 ++ l2`, so every
other entry is untouched), even when several entries match the
argument. -/
theorem remove_true_removes_exactly_one (t : RTreeAccess3D) :
    (∀ point : Vec3 × Entity, (t.remove_point point).1 = true →
      (t.remove_point point).2.size + 1 = t.size ∧
      ∃ l1 l2, t.tree = l1 ++ entityPointOfPair point :: l2 ∧
        (t.remove_point point).2.tree = l1 ++ l2) ∧
    (∀ e : Entity, (t.remove_entity e).1 = true →
      (t.remove_entity e).2.size + 1 = t.size ∧
      ∃ x l1 l2, x.entity = e ∧ t.tree = l1 ++ x :: l2 ∧
        (t.remove_entity e).2.tree = l1 ++ l2) := by
  constructor
  · intro point htrue
    have hsome : ((RTree.removeFirst (pointMatch (entityPointOfPair point))
        t.tree).1).isSome = true := by
      simpa [RTreeAccess3D.remove_point] using htrue
    obtain ⟨x, hx⟩ := Option.isSome_iff_exists.mp hsome
    have hlen := RTree.removeFirst_snd_length _ t.tree x hx
    obtain ⟨hmatch, l1, l2, hsplit, hrest⟩ :=
      RTree.removeFirst_fst_eq_some _ t.tree x hx
    obtain rfl := (pointMatch_iff _ x).mp hmatch
    refine ⟨?_, l1, l2, hsplit, by simpa [RTreeAccess3D.remove_point] using hrest⟩
    simpa [RTreeAccess3D.remove_point, RTreeAccess3D.size, RTree.size] using hlen
  · intro e htrue
    have hsome : ((RTree.removeFirst (entityMatch e) t.tree).1).isSome = true := by
      simpa [RTreeAccess3D.remove_entity] using htrue
    obtain ⟨x, hx⟩ := Option.isSome_iff_exists.mp hsome
    have hlen := RTree.removeFirst_snd_length _ t.tree x hx
    obtain ⟨hmatch, l1, l2, hsplit, hrest⟩ :=
      RTree.removeFirst_fst_eq_some _ t.tree x hx
    refine ⟨?_, x, l1, l2, by simpa [entityMatch] using hmatch, hsplit,
      by simpa [RTreeAccess3D.remove_entity] using hrest⟩
    simpa [RTreeAccess3D.remove_entity, RTreeAccess3D.size, RTree.size] using hlen

/-- Witness for C10: on an index holding entity 1 twice at different
coordinates, removing the point `((0,0,0), 1)` succeeds and shrinks the
size from 2 to 1. -/
theorem remove_true_removes_exactly_one_witness :
    ((RTreeAccess3D.mk [⟨(0, 0, 0), 1⟩, ⟨(2, 0, 0), 1⟩] 0 0).remove_point
        ((0, 0, 0), 1)).2.size + 1 =
      (RTreeAccess3D.mk [⟨(0, 0, 0), 1⟩, ⟨(2, 0, 0), 1⟩] 0 0).size :=
  ((remove_true_removes_exactly_one
    (RTreeAccess3D.mk [⟨(0, 0, 0), 1⟩, ⟨(2, 0, 0), 1⟩] 0 0)).1
    ((0, 0, 0), 1) (by decide)).1

/-- Claim C2: `nearest_neighbour q` is `none` exactly when the index is
empty, and any returned point is an indexed point whose squared distance
to `q` is at most that of every other indexed point (ties allowed). -/
theorem nearest_neighbour_correct (t : RTreeAccess3D) (q : Vec3) :
    (t.nearest_neighbour q = none ↔ t.size = 0) ∧
    ∀ v e, t.nearest_neighbour q = some (v, e) →
      EntityPoint3D.mk v e ∈ t.tree ∧
      ∀ p ∈ t.tree,
        Vec3.distance_squared q v ≤ Vec3.distance_squared q p.vec := by
  constructor
  · constructor
    · intro h
      have h' : RTree.nearestNeighbor t.tree q = none :=
        Option.map_eq_none'.mp h
      have hnil := (RTree.nearestNeighbor_eq_none_iff t.tree q).mp h'
      simp [RTreeAccess3D.size, RTree.size, hnil]
    · intro h
      have hnil : t.tree = [] := by
        simpa [RTreeAccess3D.size, RTree.size, List.length_eq_zero] using h
      show (RTree.nearestNeighbor t.tree q).map _ = none
      rw [hnil, (RTree.nearestNeighbor_eq_none_iff [] q).mpr rfl]
      rfl
  · intro v e h
    have h' : (RTree.nearestNeighbor t.tree q).map
        (fun point => (point.vec, point.entity)) = some (v, e) := h
    obtain ⟨x, hx, hxeq⟩ := Option.map_eq_some'.mp h'
    obtain ⟨hmem, hmin⟩ := RTree.nearestNeighbor_spec t.tree q x hx
    have hxve : x = EntityPoint3D.mk v e := by
      cases x
      simpa [EntityPoint3D.mk.injEq, Prod.ext_iff] using hxeq
    subst hxve
    refine ⟨hmem, fun p hp => ?_⟩
    have h2 := hmin p hp
    simp only [EntityPoint3D.distance_2] at h2
    rw [Vec3.distance_squared_comm q v, Vec3.distance_squared_comm q p.vec]
    exact h2

/-- Witness for C2: on the three-point index, the returned nearest point
`(0,0,0)` is no farther from the query `(1,0,0)` than the indexed point
`(10,10,10)`. -/
theorem nearest_neighbour_correct_witness :
    Vec3.distance_squared (1, 0, 0) (0, 0, 0) ≤
      Vec3.distance_squared (1, 0, 0) (10, 10, 10) :=
  ((nearest_neighbour_correct
      (RTreeAccess3D.mk
        [⟨(0, 0, 0), 1⟩, ⟨(2, 0, 0), 2⟩, ⟨(10, 10, 10), 3⟩] 0 0)
      (1, 0, 0)).2 (0, 0, 0) 1 (by decide)).2
    ⟨(10, 10, 10), 3⟩ (by decide)

/-- Counterexample to claim C3 as stated: with a negative radius the code
still returns every point whose squared distance is at most the squared
radius, so `within_distance (0,0,0) (-1)` on an index holding the origin
returns that point even though no point has Euclidean distance `≤ -1`. -/
theorem within_distance_negative_radius_cex :
    ((0, 0, 0), 1) ∈ (RTreeAccess3D.mk [⟨(0, 0, 0), 1⟩] 0 0).within_distance
        (0, 0, 0) (-1) ∧
    ¬ distLe (0, 0, 0) (0, 0, 0) (-1) := by
  decide

/-- Claim C3 (amended): for every nonnegative radius `r`, a pair is in
`within_distance q r` iff the corresponding point is indexed and its
Euclidean distance to `q` is at most `r` — no false positives and no
false negatives.  (For a negative radius the code behaves as for `|r|`;
see the counterexample and claim C9.) -/
theorem within_distance_exact (t : RTreeAccess3D) (q : Vec3) (r : ℤ)
    (hr : 0 ≤ r) (v : Vec3) (e : Entity) :
    (v, e) ∈ t.within_distance q r ↔
      EntityPoint3D.mk v e ∈ t.tree ∧ distLe q v r := by
  simp only [RTreeAccess3D.within_distance, RTree.locateWithinDistance,
    List.mem_map, List.mem_filter]
  constructor
  · rintro ⟨x, ⟨hxmem, hxd⟩, hxeq⟩
    have hxve : x = EntityPoint3D.mk v e := by
      cases x
      simpa [EntityPoint3D.mk.injEq, Prod.ext_iff] using hxeq
    subst hxve
    have hd : Vec3.distance_squared v q ≤ r ^ 2 := by
      simpa [EntityPoint3D.distance_2] using hxd
    refine ⟨hxmem, hr, ?_⟩
    rwa [Vec3.distance_squared_comm q v]
  · rintro ⟨hmem, -, hd⟩
    refine ⟨EntityPoint3D.mk v e, ⟨hmem, ?_⟩, rfl⟩
    simpa [EntityPoint3D.distance_2, Vec3.distance_squared_comm v q] using hd

/-- Witness for C3: on an index holding only the origin as entity 1, the
pair `((0,0,0), 1)` is returned for radius 2, and indeed the origin is
indexed at distance `≤ 2` from the query. -/
theorem within_distance_exact_witness :
    ((0, 0, 0), 1) ∈ (RTreeAccess3D.mk [⟨(0, 0, 0), 1⟩] 0 0).within_distance
        (0, 0, 0) 2 ↔
      EntityPoint3D.mk (0, 0, 0) 1 ∈
          (RTreeAccess3D.mk [⟨(0, 0, 0), 1⟩] 0 0).tree ∧
        distLe (0, 0, 0) (0, 0, 0) 2 :=
  within_distance_exact (RTreeAccess3D.mk [⟨(0, 0, 0), 1⟩] 0 0) (0, 0, 0) 2
    (by decide) (0, 0, 0) 1

/-- Claim C4: the sequence returned by `k_nearest_neighbour q k` is
ordered by non-decreasing squared distance from `q` and has length
exactly `min k size`. -/
theorem k_nearest_neighbour_sorted_length (t : RTreeAccess3D) (q : Vec3)
    (k : ℕ) :
    List.Sorted
      (fun a b : Vec3 × Entity =>
        Vec3.distance_squared q a.1 ≤ Vec3.distance_squared q b.1)
      (t.k_nearest_neighbour q k) ∧
    (t.k_nearest_neighbour q k).length = min k t.size := by
  constructor
  · have hs : List.Sorted (RTree.distRel q) (RTree.nearestNeighborIter t.tree q) :=
      List.sorted_insertionSort (RTree.distRel q) t.tree
    have ht : List.Pairwise (RTree.distRel q)
        ((RTree.nearestNeighborIter t.tree q).take k) :=
      List.Pairwise.sublist (List.take_sublist k _) hs
    refine List.Pairwise.map _ ?_ ht
    intro a b hab
    simp only [RTree.distRel, EntityPoint3D.distance_2] at hab
    rw [Vec3.distance_squared_comm q a.vec, Vec3.distance_squared_comm q b.vec]
    exact hab
  · simp [RTreeAccess3D.k_nearest_neighbour, RTreeAccess3D.size, RTree.size,
      List.length_take, RTree.nearestNeighborIter, List.length_insertionSort]
